import Mathlib

/-!
Verification of the canvas-layout and compositing engine of pokeget-rs
(`src/sprites.rs`), shallowly embedded in Lean 4.

Machine integers (`u32`, `usize`) are modelled as `Nat`; all arithmetic in
the source stays far below `2^32` for the inputs of interest and the source
uses only addition, `max`, and in-bounds subtraction.  The terminal-size
query (`terminal_size()` from the `terminal_size` crate) is an external
effect; it is modelled as an `Option Nat` parameter threaded into the
functions that the Rust code obtains it inside.
-/

namespace Pokeget

/-- A pixel in RGBA form, as stored by `image::DynamicImage` (rgba8). -/
structure Pixel where
  r : Nat
  g : Nat
  b : Nat
  a : Nat
deriving DecidableEq, Repr

/-- The fully transparent pixel used by `DynamicImage::new_rgba8`. -/
def transparentPixel : Pixel := ⟨0, 0, 0, 0⟩

/-- An `image::DynamicImage`: a width, a height, and row-major pixel data.
`data` holds `height` rows of `width` pixels each. -/
structure Image where
  width : Nat
  height : Nat
  data : List (List Pixel)
deriving DecidableEq, Repr

/-- Models `GenericImageView::get_pixel` (only ever called in-bounds by the code). -/
def Image.getPixel (im : Image) (x y : Nat) : Pixel :=
  (im.data.getD y []).getD x transparentPixel

/-- Models `GenericImage::put_pixel` (only ever called in-bounds by the code). -/
def Image.putPixel (im : Image) (x y : Nat) (p : Pixel) : Image :=
  { im with data := im.data.set y ((im.data.getD y []).set x p) }

/-- Models `DynamicImage::new_rgba8 w h`: a `w × h` canvas of transparent pixels. -/
def Image.newRgba8 (w h : Nat) : Image :=
  { width := w, height := h,
    data := List.replicate h (List.replicate w transparentPixel) }

/-- The error produced by the `image` crate that is reachable from this
code: `GenericImage::copy_from`'s bounds check returns
`ImageError::Parameter(DimensionMismatch)`. -/
inductive ImageError where
  | dimensionMismatch
deriving DecidableEq, Repr

/-- The pixel-copy loop of `GenericImage::copy_from` (the default method of
the `image` crate): for `k in 0..other.height`, `i in 0..other.width`, put
`other.get_pixel(i, k)` at `(i + x, k + y)`. -/
def Image.blitPixels (canvas other : Image) (x y : Nat) : Image :=
  (List.range other.height).foldl
    (fun c k =>
      (List.range other.width).foldl
        (fun c2 i => c2.putPixel (i + x) (k + y) (other.getPixel i k)) c)
    canvas

/-- Models `GenericImage::copy_from` (default method of the `image` crate): fails
with a dimension mismatch when the source does not fit at `(x, y)`,
otherwise copies every source pixel. -/
def Image.copyFrom (canvas other : Image) (x y : Nat) :
    Except ImageError Image :=
  if canvas.width < other.width + x ∨ canvas.height < other.height + y then
    .error .dimensionMismatch
  else
    .ok (canvas.blitPixels other x y)

/-- Models `Pokemon` (from `src/pokemon.rs`); only `path`, `name` and `sprite` are
value fields (the `attributes` field is a borrowed reference unused by
`sprites.rs` and is omitted). -/
structure Pokemon where
  path : String
  name : String
  sprite : Image
deriving DecidableEq, Repr

instance : Inhabited Pokemon := ⟨{ path := "", name := "", sprite := Image.newRgba8 0 0 }⟩

/-- Models `pokemons[pokemon_idx]` — indexing into the sprite slice.  The layouts
produced by the planner only contain in-range indices. -/
def pkGet (pokemons : List Pokemon) (idx : Nat) : Pokemon :=
  pokemons.getD idx default

/-- Models `SpriteError` (from `src/sprites.rs`): exactly two variants. -/
inductive SpriteError where
  | CopyFailed (err : ImageError)
  | EmptyInput
deriving DecidableEq, Repr

/-- Models `CanvasDimensions` (from `src/sprites.rs`). -/
structure CanvasDimensions where
  width : Nat
  height : Nat
deriving DecidableEq, Repr

/-- Models `SpriteLayout` (from `src/sprites.rs`): rows of indices into the input. -/
structure SpriteLayout where
  rows : List (List Nat)
deriving DecidableEq, Repr

/-- The `SPRITE_SPACING` constant. -/
def SPRITE_SPACING : Nat := 1

/-- The `MIN_TERMINAL_WIDTH` constant ("Fallback width"). -/
def MIN_TERMINAL_WIDTH : Nat := 40

/-- The terminal-width resolution in `calculate_for_wrapped`:
`terminal_size().map(|(Width(w), _)| w as u32).unwrap_or(MIN_TERMINAL_WIDTH)`.
The query result is the `Option Nat` argument. -/
def resolvedTerminalWidth (ts : Option Nat) : Nat :=
  ts.getD MIN_TERMINAL_WIDTH

/-- The mutable loop state of `CanvasDimensions::calculate_for_wrapped`. -/
structure WrapState where
  rows : List (List Nat)
  currentRow : List Nat
  currentRowWidth : Nat
  maxRowWidth : Nat
  currentRowHeight : Nat
deriving Repr

/-- The initial loop state of `calculate_for_wrapped`. -/
def initWrapState : WrapState :=
  { rows := [], currentRow := [], currentRowWidth := 0,
    maxRowWidth := 0, currentRowHeight := 0 }

/-- One iteration of the `for (i, pokemon) in pokemons.iter().enumerate()`
loop in `calculate_for_wrapped`. -/
def wrapStep (terminalWidth : Nat) (s : WrapState) (i : Nat) (pokemon : Pokemon) :
    WrapState :=
  let spriteWidth := pokemon.sprite.width
  let spriteHeight := pokemon.sprite.height
  let neededWidth :=
    if s.currentRow.isEmpty then spriteWidth
    else s.currentRowWidth + SPRITE_SPACING + spriteWidth
  if neededWidth > terminalWidth ∧ ¬ s.currentRow.isEmpty then
    { rows := s.rows ++ [s.currentRow],
      maxRowWidth := max s.maxRowWidth s.currentRowWidth,
      currentRow := [i],
      currentRowWidth := spriteWidth,
      currentRowHeight := spriteHeight }
  else
    { s with
      currentRow := s.currentRow ++ [i],
      currentRowWidth := neededWidth,
      currentRowHeight := max s.currentRowHeight spriteHeight }

/-- The whole wrapping loop of `calculate_for_wrapped`, as a fold over the
enumerated input. -/
def wrapLoop (terminalWidth : Nat) (pokemons : List Pokemon) : WrapState :=
  pokemons.enum.foldl (fun s ip => wrapStep terminalWidth s ip.1 ip.2)
    initWrapState

/-- The "Add the last row" step after the loop: the final list of rows. -/
def finalRows (s : WrapState) : List (List Nat) :=
  if s.currentRow.isEmpty then s.rows else s.rows ++ [s.currentRow]

/-- The "Add the last row" step after the loop: the final maximum row width. -/
def finalMaxRowWidth (s : WrapState) : Nat :=
  if s.currentRow.isEmpty then s.maxRowWidth
  else max s.maxRowWidth s.currentRowWidth

/-- The inner `for &pokemon_idx in row_indices` maximum-height loop, shared
verbatim by the height computation in `calculate_for_wrapped` and by
`compose_with_layout`. -/
def rowHeight (pokemons : List Pokemon) (rowIndices : List Nat) : Nat :=
  rowIndices.foldl (fun h idx => max h (pkGet pokemons idx).sprite.height) 0

/-- The `total_height` computation of `calculate_for_wrapped`: `1` if there
are no rows, otherwise the sum of the row heights plus
`(rows.len() - 1) * SPRITE_SPACING`. -/
def totalHeight (pokemons : List Pokemon) (rows : List (List Nat)) : Nat :=
  if rows.isEmpty then 1
  else
    rows.foldl (fun h r => h + rowHeight pokemons r) 0
      + (rows.length - 1) * SPRITE_SPACING

/-- Models `CanvasDimensions::calculate_for_wrapped`, with the terminal-size query
result supplied as `ts`. -/
def calculate_for_wrapped (pokemons : List Pokemon) (ts : Option Nat) :
    CanvasDimensions × SpriteLayout :=
  let terminalWidth := resolvedTerminalWidth ts
  let s := wrapLoop terminalWidth pokemons
  let rows := finalRows s
  let dimensions : CanvasDimensions :=
    { width := max (finalMaxRowWidth s) 1,
      height := totalHeight pokemons rows }
  (dimensions, { rows := rows })

/-- Models `SpriteComposer::new`: an all-transparent canvas of the given size. -/
def SpriteComposer.new (dimensions : CanvasDimensions) : Image :=
  Image.newRgba8 dimensions.width dimensions.height

/-- The bottom-alignment formula of `compose_with_layout`:
`sprite_y = y_offset + row_height - sprite.height()`. -/
def spriteY (yOffset rowH spriteHeight : Nat) : Nat :=
  yOffset + rowH - spriteHeight

/-- The inner `for &pokemon_idx in row_indices` placement loop of
`compose_with_layout`: blit each sprite bottom-aligned, advancing
`x_offset`; a failed copy aborts with `CopyFailed`. -/
def placeRow (pokemons : List Pokemon) (rowH yOffset : Nat) :
    Image → Nat → List Nat → Except SpriteError Image
  | canvas, _, [] => .ok canvas
  | canvas, xOffset, idx :: rest =>
    let pokemon := pkGet pokemons idx
    let sy := spriteY yOffset rowH pokemon.sprite.height
    match canvas.copyFrom pokemon.sprite xOffset sy with
    | .error e => .error (.CopyFailed e)
    | .ok c =>
      placeRow pokemons rowH yOffset c
        (xOffset + pokemon.sprite.width + SPRITE_SPACING) rest

/-- The outer `for row_indices in &layout.rows` loop of
`compose_with_layout`, threading `y_offset`. -/
def composeRows (pokemons : List Pokemon) :
    Image → Nat → List (List Nat) → Except SpriteError Image
  | canvas, _, [] => .ok canvas
  | canvas, yOffset, row :: rest =>
    let rowH := rowHeight pokemons row
    match placeRow pokemons rowH yOffset canvas 0 row with
    | .error e => .error e
    | .ok c => composeRows pokemons c (yOffset + rowH + SPRITE_SPACING) rest

/-- Models `SpriteComposer::compose_with_layout`. -/
def compose_with_layout (canvas : Image) (pokemons : List Pokemon)
    (layout : SpriteLayout) : Except SpriteError Image :=
  composeRows pokemons canvas 0 layout.rows

/-- Models `combine_sprites` (from `src/sprites.rs`), with the terminal-size query
result supplied as `ts`. -/
def combine_sprites (pokemons : List Pokemon) (ts : Option Nat) :
    Except SpriteError Image :=
  if pokemons.isEmpty then .error .EmptyInput
  else
    let dl := calculate_for_wrapped pokemons ts
    compose_with_layout (SpriteComposer.new dl.1) pokemons dl.2

/-- Accumulated width of a row of sprite indices: the sum of the sprite
widths plus `SPRITE_SPACING` between consecutive sprites.  This is the
quantity the planner tracks in `current_row_width`. -/
def rowWidthFrom (pokemons : List Pokemon) : List Nat → Nat
  | [] => 0
  | [i] => (pkGet pokemons i).sprite.width
  | i :: j :: rest =>
    (pkGet pokemons i).sprite.width + SPRITE_SPACING
      + rowWidthFrom pokemons (j :: rest)

/-- A row satisfying the wrapping bound: either its accumulated width fits
within the terminal width, or it is a single sprite that alone exceeds the
bound. -/
def GoodRow (pokemons : List Pokemon) (terminalWidth : Nat) (r : List Nat) :
    Prop :=
  rowWidthFrom pokemons r ≤ terminalWidth ∨
    ∃ i, r = [i] ∧ terminalWidth < (pkGet pokemons i).sprite.width

/-- Accumulated height of a list of rows: the sum of the row heights plus
`SPRITE_SPACING` between consecutive rows. -/
def rowsHeightFrom (pokemons : List Pokemon) : List (List Nat) → Nat
  | [] => 0
  | [r] => rowHeight pokemons r
  | r :: r2 :: rest =>
    rowHeight pokemons r + SPRITE_SPACING
      + rowsHeightFrom pokemons (r2 :: rest)

/-- The invariant maintained by the wrapping loop after consuming the first
`k` sprites: the closed rows followed by the current row list exactly the
indices `0, …, k-1` in order, the tracked widths agree with the accumulated
row widths, and every closed row is a non-empty row obeying the wrapping
bound. -/
structure WrapInv (pokemons : List Pokemon) (terminalWidth k : Nat)
    (s : WrapState) : Prop where
  flat : s.rows.flatten ++ s.currentRow = List.range k
  curW : s.currentRowWidth = rowWidthFrom pokemons s.currentRow
  maxW : s.maxRowWidth = (s.rows.map (rowWidthFrom pokemons)).foldl max 0
  good : ∀ r ∈ s.rows, GoodRow pokemons terminalWidth r
  goodCur : GoodRow pokemons terminalWidth s.currentRow
  rowsNe : ∀ r ∈ s.rows, r ≠ []

/-- A test sprite of the given size (blank pixels; the layout only reads
the dimensions). -/
def mkPokemon (w h : Nat) : Pokemon :=
  { path := "", name := "", sprite := Image.newRgba8 w h }

/-- Scenario A of the spec: three sprites of widths 10, 10, 10. -/
def scenarioA : List Pokemon := [mkPokemon 10 1, mkPokemon 10 2, mkPokemon 10 1]

/-- Scenario B of the spec: a single sprite of width 50. -/
def scenarioB : List Pokemon := [mkPokemon 50 3]

/-- Scenario D of the spec: two sprites with heights 30 and 50. -/
def scenarioD : List Pokemon := [mkPokemon 4 30, mkPokemon 4 50]

/-- A single sprite of width 5 and height 0 (the `image` crate permits
zero-height buffers). -/
def zeroHeightPokemon : List Pokemon := [mkPokemon 5 0]

/-- Two sprites of width 6 each: they share a row at terminal width 40 but
wrap at terminal width 10. -/
def twoNarrow : List Pokemon := [mkPokemon 6 1, mkPokemon 6 1]

/-- A single 2×2 sprite, used with a deliberately undersized 1×1 canvas. -/
def bigOnTiny : List Pokemon := [mkPokemon 2 2]

/-- A left fold by `max` never goes below its initial value. -/
theorem foldl_max_le_init (l : List Nat) : ∀ a : Nat, a ≤ l.foldl max a := by
  induction l with
  | nil => intro a; exact le_refl a
  | cons x xs ih =>
    intro a
    exact le_trans (le_max_left a x) (ih (max a x))

/-- A left fold by `max` dominates every member of the list. -/
theorem foldl_max_le_mem (l : List Nat) :
    ∀ (a b : Nat), b ∈ l → b ≤ l.foldl max a := by
  induction l with
  | nil => intro a b hb; cases hb
  | cons x xs ih =>
    intro a b hb
    rcases List.mem_cons.mp hb with hb | hb
    · subst hb
      exact le_trans (le_max_right a b) (foldl_max_le_init xs (max a b))
    · exact ih (max a x) b hb

/-- A left fold accumulating sums equals the initial value plus the list sum. -/
theorem foldl_add_eq_sum {α : Type} (f : α → Nat) (l : List α) :
    ∀ a : Nat, l.foldl (fun h x => h + f x) a = a + (l.map f).sum := by
  induction l with
  | nil => intro a; simp
  | cons x xs ih =>
    intro a
    rw [List.foldl_cons, ih (a + f x)]
    simp [Nat.add_assoc]

/-- Appending one index to a non-empty row grows the accumulated width by
the spacing plus that sprite's width, matching the planner's update. -/
theorem rowWidthFrom_append (pokemons : List Pokemon) (i : Nat) :
    ∀ r : List Nat, r ≠ [] →
      rowWidthFrom pokemons (r ++ [i]) =
        rowWidthFrom pokemons r + SPRITE_SPACING
          + (pkGet pokemons i).sprite.width := by
  intro r
  induction r with
  | nil => intro hr; exact absurd rfl hr
  | cons j t ih =>
    intro _
    cases t with
    | nil => simp [rowWidthFrom]
    | cons j2 t2 =>
      have h2 := ih (List.cons_ne_nil j2 t2)
      have hstep :
          rowWidthFrom pokemons ((j :: j2 :: t2) ++ [i]) =
            (pkGet pokemons j).sprite.width + SPRITE_SPACING
              + rowWidthFrom pokemons ((j2 :: t2) ++ [i]) := by
        simp [rowWidthFrom]
      rw [hstep, h2]
      simp [rowWidthFrom]
      omega

/-- The accumulated width of a row dominates its first sprite's width. -/
theorem rowWidthFrom_head_le (pokemons : List Pokemon) (i : Nat)
    (rest : List Nat) :
    (pkGet pokemons i).sprite.width ≤ rowWidthFrom pokemons (i :: rest) := by
  cases rest with
  | nil => exact le_refl _
  | cons j t => simp [rowWidthFrom]; omega

/-- Unfolding the accumulated width of a row with at least two sprites. -/
theorem rowWidthFrom_cons_of_ne (pokemons : List Pokemon) (i : Nat)
    (rest : List Nat) (h : rest ≠ []) :
    rowWidthFrom pokemons (i :: rest) =
      (pkGet pokemons i).sprite.width + SPRITE_SPACING
        + rowWidthFrom pokemons rest := by
  cases rest with
  | nil => exact absurd rfl h
  | cons j t => simp [rowWidthFrom]

/-- The accumulated height of a list of rows dominates its first row's
height. -/
theorem rowHeight_le_rowsHeightFrom (pokemons : List Pokemon)
    (r : List Nat) (rest : List (List Nat)) :
    rowHeight pokemons r ≤ rowsHeightFrom pokemons (r :: rest) := by
  cases rest with
  | nil => exact le_refl _
  | cons r2 t => simp [rowsHeightFrom]; omega

/-- Unfolding the accumulated height of at least two rows. -/
theorem rowsHeightFrom_cons_of_ne (pokemons : List Pokemon)
    (r : List Nat) (rest : List (List Nat)) (h : rest ≠ []) :
    rowsHeightFrom pokemons (r :: rest) =
      rowHeight pokemons r + SPRITE_SPACING + rowsHeightFrom pokemons rest := by
  cases rest with
  | nil => exact absurd rfl h
  | cons r2 t => simp [rowsHeightFrom]

/-- The accumulated height of a non-empty list of rows equals the sum of
the row heights plus spacing between consecutive rows. -/
theorem rowsHeightFrom_eq_sum (pokemons : List Pokemon) :
    ∀ rows : List (List Nat), rows ≠ [] →
      rowsHeightFrom pokemons rows =
        (rows.map (rowHeight pokemons)).sum
          + (rows.length - 1) * SPRITE_SPACING := by
  intro rows
  induction rows with
  | nil => intro hr; exact absurd rfl hr
  | cons r t ih =>
    intro _
    cases t with
    | nil => simp [rowsHeightFrom, SPRITE_SPACING]
    | cons r2 t2 =>
      have h2 := ih (List.cons_ne_nil r2 t2)
      rw [rowsHeightFrom_cons_of_ne pokemons r (r2 :: t2) (List.cons_ne_nil r2 t2), h2]
      simp [SPRITE_SPACING, List.length_cons]
      omega

/-- The `total_height` computation equals the accumulated height when the
row list is non-empty. -/
theorem totalHeight_eq_rowsHeightFrom (pokemons : List Pokemon)
    (rows : List (List Nat)) (h : rows ≠ []) :
    totalHeight pokemons rows = rowsHeightFrom pokemons rows := by
  unfold totalHeight
  rw [if_neg (by simpa using h)]
  rw [foldl_add_eq_sum (rowHeight pokemons) rows 0]
  rw [rowsHeightFrom_eq_sum pokemons rows h]
  omega

/-- Every sprite of a row is no taller than the computed row height. -/
theorem height_le_rowHeight (pokemons : List Pokemon) (r : List Nat)
    (idx : Nat) (h : idx ∈ r) :
    (pkGet pokemons idx).sprite.height ≤ rowHeight pokemons r := by
  have hmap : rowHeight pokemons r =
      (r.map (fun i => (pkGet pokemons i).sprite.height)).foldl max 0 := by
    rw [List.foldl_map]
    rfl
  rw [hmap]
  exact foldl_max_le_mem _ 0 _ (List.mem_map_of_mem _ h)

/-- A singleton row always obeys the wrapping bound: it fits, or it is the
single oversized sprite the planner places alone. -/
theorem goodRow_single (pokemons : List Pokemon) (tw i : Nat) :
    GoodRow pokemons tw [i] := by
  rcases le_or_lt (pkGet pokemons i).sprite.width tw with hle | hlt
  · left
    simpa [rowWidthFrom] using hle
  · right
    exact ⟨i, rfl, hlt⟩

/-- One loop iteration of the planner preserves the wrapping invariant. -/
theorem wrapStep_inv {pokemons : List Pokemon} {tw k : Nat} {s : WrapState}
    {p : Pokemon} (hp : pkGet pokemons k = p) (h : WrapInv pokemons tw k s) :
    WrapInv pokemons tw (k + 1) (wrapStep tw s k p) := by
  obtain ⟨rows, cur, cw, mw, ch⟩ := s
  obtain ⟨hflat, hcurW, hmaxW, hgood, hgoodCur, hne⟩ := h
  cases cur with
  | nil =>
    have hstate : wrapStep tw ⟨rows, [], cw, mw, ch⟩ k p =
        { rows := rows, currentRow := [k],
          currentRowWidth := p.sprite.width,
          maxRowWidth := mw,
          currentRowHeight := max ch p.sprite.height } := by
      simp [wrapStep]
    rw [hstate]
    refine ⟨?_, ?_, ?_, hgood, goodRow_single pokemons tw k, hne⟩
    · simp only at hflat
      rw [List.range_succ, ← hflat]
      simp
    · rw [← hp]
      simp [rowWidthFrom]
    · exact hmaxW
  | cons c cs =>
    by_cases hov : cw + SPRITE_SPACING + p.sprite.width > tw
    · have hstate : wrapStep tw ⟨rows, c :: cs, cw, mw, ch⟩ k p =
          { rows := rows ++ [c :: cs], currentRow := [k],
            currentRowWidth := p.sprite.width,
            maxRowWidth := max mw cw,
            currentRowHeight := p.sprite.height } := by
        simp [wrapStep, hov]
      rw [hstate]
      refine ⟨?_, ?_, ?_, ?_, goodRow_single pokemons tw k, ?_⟩
      · simp only at hflat
        rw [List.range_succ, ← hflat]
        simp
      · rw [← hp]
        simp [rowWidthFrom]
      · simp only at hmaxW hcurW
        rw [List.map_append, List.foldl_append, hmaxW, hcurW]
        simp
      · intro r hr
        rcases List.mem_append.mp hr with hr | hr
        · exact hgood r hr
        · rw [List.mem_singleton.mp hr]
          exact hgoodCur
      · intro r hr
        rcases List.mem_append.mp hr with hr | hr
        · exact hne r hr
        · rw [List.mem_singleton.mp hr]
          exact List.cons_ne_nil c cs
    · have hstate : wrapStep tw ⟨rows, c :: cs, cw, mw, ch⟩ k p =
          { rows := rows, currentRow := (c :: cs) ++ [k],
            currentRowWidth := cw + SPRITE_SPACING + p.sprite.width,
            maxRowWidth := mw,
            currentRowHeight := max ch p.sprite.height } := by
        simp [wrapStep, hov]
      rw [hstate]
      have hcurW2 : cw + SPRITE_SPACING + p.sprite.width =
          rowWidthFrom pokemons ((c :: cs) ++ [k]) := by
        rw [rowWidthFrom_append pokemons k (c :: cs) (List.cons_ne_nil c cs)]
        simp only at hcurW
        rw [hcurW, hp]
      refine ⟨?_, hcurW2, hmaxW, hgood, ?_, hne⟩
      · simp only at hflat
        rw [← List.append_assoc, hflat, List.range_succ]
      · left
        rw [← hcurW2]
        omega

/-- Folding the planner step over an enumerated suffix of the input keeps
the wrapping invariant, advancing the index by the suffix length. -/
theorem wrapFold_inv (pokemons : List Pokemon) (tw : Nat) :
    ∀ (l : List Pokemon) (k : Nat) (s : WrapState),
      (∀ j, l[j]? = pokemons[k + j]?) → WrapInv pokemons tw k s →
      WrapInv pokemons tw (k + l.length)
        ((l.enumFrom k).foldl (fun s ip => wrapStep tw s ip.1 ip.2) s) := by
  intro l
  induction l with
  | nil =>
    intro k s _ h
    simpa using h
  | cons p rest ih =>
    intro k s hj h
    have h0 : pokemons[k]? = some p := by
      have := (hj 0).symm
      simpa using this
    have hp : pkGet pokemons k = p := by
      simp [pkGet, List.getD_eq_getElem?_getD, h0]
    have hrest : ∀ j, rest[j]? = pokemons[(k + 1) + j]? := by
      intro j
      have := hj (j + 1)
      have harith : k + (j + 1) = (k + 1) + j := by omega
      simpa [harith] using this
    have hstep := wrapStep_inv hp h
    have hres := ih (k + 1) (wrapStep tw s k p) hrest hstep
    have harith : (k + 1) + rest.length = k + (p :: rest).length := by
      simp [List.length_cons]
      omega
    rw [harith] at hres
    simpa [List.enumFrom] using hres

/-- The wrapping loop establishes the invariant for the full input. -/
theorem wrapLoop_inv (pokemons : List Pokemon) (tw : Nat) :
    WrapInv pokemons tw pokemons.length (wrapLoop tw pokemons) := by
  have hinit : WrapInv pokemons tw 0 initWrapState := by
    refine ⟨?_, ?_, ?_, ?_, ?_, ?_⟩ <;>
      simp [initWrapState, rowWidthFrom, GoodRow]
  have := wrapFold_inv pokemons tw pokemons 0 initWrapState
    (by intro j; simp) hinit
  simpa [wrapLoop, List.enum] using this

/-- After the final "Add the last row" step, the rows flatten to the full
index range in order. -/
theorem finalRows_flatten {pokemons : List Pokemon} {tw k : Nat}
    {s : WrapState} (h : WrapInv pokemons tw k s) :
    (finalRows s).flatten = List.range k := by
  unfold finalRows
  by_cases hc : s.currentRow.isEmpty
  · rw [if_pos hc]
    have hnil : s.currentRow = [] := by simpa using hc
    have := h.flat
    rw [hnil] at this
    simpa using this
  · rw [if_neg hc]
    rw [List.flatten_append]
    simpa using h.flat

/-- After the final step, every row is non-empty and obeys the wrapping
bound. -/
theorem finalRows_good {pokemons : List Pokemon} {tw k : Nat}
    {s : WrapState} (h : WrapInv pokemons tw k s) :
    ∀ r ∈ finalRows s, GoodRow pokemons tw r ∧ r ≠ [] := by
  unfold finalRows
  by_cases hc : s.currentRow.isEmpty
  · rw [if_pos hc]
    intro r hr
    exact ⟨h.good r hr, h.rowsNe r hr⟩
  · rw [if_neg hc]
    intro r hr
    rcases List.mem_append.mp hr with hr | hr
    · exact ⟨h.good r hr, h.rowsNe r hr⟩
    · rw [List.mem_singleton.mp hr]
      exact ⟨h.goodCur, by simpa using hc⟩

/-- After the final step, the tracked maximum row width is the maximum of
the accumulated widths of the final rows. -/
theorem finalMaxRowWidth_eq {pokemons : List Pokemon} {tw k : Nat}
    {s : WrapState} (h : WrapInv pokemons tw k s) :
    finalMaxRowWidth s =
      ((finalRows s).map (rowWidthFrom pokemons)).foldl max 0 := by
  unfold finalMaxRowWidth finalRows
  by_cases hc : s.currentRow.isEmpty
  · rw [if_pos hc, if_pos hc]
    exact h.maxW
  · rw [if_neg hc, if_neg hc]
    rw [List.map_append, List.foldl_append, h.maxW, h.curW]
    simp

/-- Folding an `Image` transformer that never changes the width field
preserves the width. -/
theorem foldl_image_width {α : Type} (g : Image → α → Image)
    (hg : ∀ c a, (g c a).width = c.width) :
    ∀ (l : List α) (c : Image), (l.foldl g c).width = c.width := by
  intro l
  induction l with
  | nil => intro c; rfl
  | cons x xs ih =>
    intro c
    rw [List.foldl_cons, ih (g c x), hg]

/-- Folding an `Image` transformer that never changes the height field
preserves the height. -/
theorem foldl_image_height {α : Type} (g : Image → α → Image)
    (hg : ∀ c a, (g c a).height = c.height) :
    ∀ (l : List α) (c : Image), (l.foldl g c).height = c.height := by
  intro l
  induction l with
  | nil => intro c; rfl
  | cons x xs ih =>
    intro c
    rw [List.foldl_cons, ih (g c x), hg]

/-- The pixel-copy loop leaves the canvas width unchanged. -/
theorem blitPixels_width (c o : Image) (x y : Nat) :
    (c.blitPixels o x y).width = c.width := by
  unfold Image.blitPixels
  refine foldl_image_width _ ?_ _ c
  intro c1 k
  refine foldl_image_width _ ?_ _ c1
  intro c2 i
  rfl

/-- The pixel-copy loop leaves the canvas height unchanged. -/
theorem blitPixels_height (c o : Image) (x y : Nat) :
    (c.blitPixels o x y).height = c.height := by
  unfold Image.blitPixels
  refine foldl_image_height _ ?_ _ c
  intro c1 k
  refine foldl_image_height _ ?_ _ c1
  intro c2 i
  rfl

/-- A blit whose source footprint fits inside the canvas succeeds. -/
theorem copyFrom_ok (c o : Image) (x y : Nat)
    (hw : o.width + x ≤ c.width) (hh : o.height + y ≤ c.height) :
    c.copyFrom o x y = .ok (c.blitPixels o x y) := by
  unfold Image.copyFrom
  rw [if_neg]
  intro hor
  rcases hor with hor | hor <;> omega

/-- The row-placement loop succeeds and preserves the canvas size whenever
the row fits horizontally from the current offset and the row bottom edge
fits vertically. -/
theorem placeRow_ok (pokemons : List Pokemon) (rowH yOffset : Nat) :
    ∀ (row : List Nat) (canvas : Image) (xOffset : Nat),
      yOffset + rowH ≤ canvas.height →
      (∀ idx ∈ row, (pkGet pokemons idx).sprite.height ≤ rowH) →
      (row ≠ [] → xOffset + rowWidthFrom pokemons row ≤ canvas.width) →
      ∃ c, placeRow pokemons rowH yOffset canvas xOffset row = .ok c ∧
        c.width = canvas.width ∧ c.height = canvas.height := by
  intro row
  induction row with
  | nil =>
    intro canvas x _ _ _
    exact ⟨canvas, rfl, rfl, rfl⟩
  | cons idx rest ih =>
    intro canvas x hy hh hx
    have hxb := hx (List.cons_ne_nil idx rest)
    have hhead := rowWidthFrom_head_le pokemons idx rest
    have hw : (pkGet pokemons idx).sprite.width + x ≤ canvas.width := by omega
    have hhd : (pkGet pokemons idx).sprite.height ≤ rowH :=
      hh idx (List.mem_cons_self idx rest)
    have hsy : (pkGet pokemons idx).sprite.height +
        spriteY yOffset rowH (pkGet pokemons idx).sprite.height ≤
          canvas.height := by
      unfold spriteY
      omega
    have hcopy := copyFrom_ok canvas (pkGet pokemons idx).sprite x
      (spriteY yOffset rowH (pkGet pokemons idx).sprite.height) hw hsy
    set c1 := canvas.blitPixels (pkGet pokemons idx).sprite x
      (spriteY yOffset rowH (pkGet pokemons idx).sprite.height) with hc1
    have hcw : c1.width = canvas.width := blitPixels_width canvas _ _ _
    have hch : c1.height = canvas.height := blitPixels_height canvas _ _ _
    obtain ⟨c2, hok2, hw2, hh2⟩ :=
      ih c1 (x + (pkGet pokemons idx).sprite.width + SPRITE_SPACING)
        (by rw [hch]; exact hy)
        (fun i hi => hh i (List.mem_cons_of_mem idx hi))
        (fun hne => by
          rw [hcw]
          rw [rowWidthFrom_cons_of_ne pokemons idx rest hne] at hxb
          simp [SPRITE_SPACING] at hxb ⊢
          omega)
    refine ⟨c2, ?_, by rw [hw2, hcw], by rw [hh2, hch]⟩
    simp only [placeRow]
    rw [hcopy]
    exact hok2

/-- The row loop of the compositor succeeds and preserves the canvas size
whenever every row fits horizontally and the accumulated rows fit
vertically from the current offset. -/
theorem composeRows_ok (pokemons : List Pokemon) :
    ∀ (rows : List (List Nat)) (canvas : Image) (yOffset : Nat),
      (rows ≠ [] → yOffset + rowsHeightFrom pokemons rows ≤ canvas.height) →
      (∀ r ∈ rows, rowWidthFrom pokemons r ≤ canvas.width) →
      ∃ c, composeRows pokemons canvas yOffset rows = .ok c ∧
        c.width = canvas.width ∧ c.height = canvas.height := by
  intro rows
  induction rows with
  | nil =>
    intro canvas y _ _
    exact ⟨canvas, rfl, rfl, rfl⟩
  | cons r rest ih =>
    intro canvas y hheight hwidth
    have hyb := hheight (List.cons_ne_nil r rest)
    have hhr := rowHeight_le_rowsHeightFrom pokemons r rest
    have hy : y + rowHeight pokemons r ≤ canvas.height := by omega
    obtain ⟨c1, hok1, hw1, hh1⟩ :=
      placeRow_ok pokemons (rowHeight pokemons r) y r canvas 0 hy
        (fun idx hi => height_le_rowHeight pokemons r idx hi)
        (fun _ => by
          have := hwidth r (List.mem_cons_self r rest)
          omega)
    obtain ⟨c2, hok2, hw2, hh2⟩ :=
      ih c1 (y + rowHeight pokemons r + SPRITE_SPACING)
        (fun hne => by
          rw [hh1]
          rw [rowsHeightFrom_cons_of_ne pokemons r rest hne] at hyb
          omega)
        (fun r2 hr2 => by
          rw [hw1]
          exact hwidth r2 (List.mem_cons_of_mem r hr2))
    refine ⟨c2, ?_, by rw [hw2, hw1], by rw [hh2, hh1]⟩
    simp only [composeRows]
    rw [hok1]
    exact hok2

/-- The planner's layout and dimensions always let the compositor finish:
for non-empty input, `combine_sprites` reaches no error branch. -/
theorem combine_sprites_ok (pokemons : List Pokemon) (ts : Option Nat)
    (h : pokemons ≠ []) : ∃ img, combine_sprites pokemons ts = .ok img := by
  have hinv := wrapLoop_inv pokemons (resolvedTerminalWidth ts)
  set s := wrapLoop (resolvedTerminalWidth ts) pokemons with hs
  set rows := finalRows s with hrows
  have hflat : rows.flatten = List.range pokemons.length := finalRows_flatten hinv
  have hrowsne : rows ≠ [] := by
    intro he
    rw [he] at hflat
    simp only [List.flatten_nil] at hflat
    have h0 : pokemons.length = 0 := by
      have := List.range_eq_nil.mp hflat.symm
      exact this
    exact h (List.length_eq_zero.mp h0)
  have hmaxeq := finalMaxRowWidth_eq hinv
  have hwidth_le : ∀ r ∈ rows, rowWidthFrom pokemons r ≤ max (finalMaxRowWidth s) 1 := by
    intro r hr
    have h1 : rowWidthFrom pokemons r ≤ finalMaxRowWidth s := by
      rw [hmaxeq]
      exact foldl_max_le_mem _ 0 _ (List.mem_map_of_mem _ hr)
    exact le_trans h1 (le_max_left _ 1)
  have hheq : totalHeight pokemons rows = rowsHeightFrom pokemons rows :=
    totalHeight_eq_rowsHeightFrom pokemons rows hrowsne
  have hcanvw : (SpriteComposer.new (calculate_for_wrapped pokemons ts).1).width =
      max (finalMaxRowWidth s) 1 := rfl
  have hcanvh : (SpriteComposer.new (calculate_for_wrapped pokemons ts).1).height =
      totalHeight pokemons rows := rfl
  obtain ⟨img, hok, _, _⟩ :=
    composeRows_ok pokemons rows
      (SpriteComposer.new (calculate_for_wrapped pokemons ts).1) 0
      (fun _ => by rw [hcanvh, hheq]; omega)
      (fun r hr => by rw [hcanvw]; exact hwidth_le r hr)
  refine ⟨img, ?_⟩
  have hne : pokemons.isEmpty = false := by
    simpa [List.isEmpty_iff] using h
  simp only [combine_sprites, hne, Bool.false_eq_true, if_false]
  exact hok

/-- For non-empty input the planner closes at least one row. -/
theorem finalRows_ne_nil (pokemons : List Pokemon) (tw : Nat)
    (h : pokemons ≠ []) : finalRows (wrapLoop tw pokemons) ≠ [] := by
  intro he
  have hflat := finalRows_flatten (wrapLoop_inv pokemons tw)
  rw [he] at hflat
  simp only [List.flatten_nil] at hflat
  exact h (List.length_eq_zero.mp (List.range_eq_nil.mp hflat.symm))

/-- C1: for every non-empty sprite sequence, the layout produced by the
planner partitions the input indices exactly once into rows — flattening
the rows in order yields exactly `0, …, n-1`, so every index appears in
exactly one row with no duplication, no omission, and order preserved both
within and across rows. -/
theorem c1_layout_partitions_input (pokemons : List Pokemon) (ts : Option Nat)
    (h : pokemons ≠ []) :
    ((calculate_for_wrapped pokemons ts).2.rows).flatten =
      List.range pokemons.length :=
  finalRows_flatten (wrapLoop_inv pokemons (resolvedTerminalWidth ts))

/-- C1 witness: scenario A instantiates the partition property. -/
theorem c1_layout_partitions_input_witness :
    scenarioA ≠ [] ∧
    ((calculate_for_wrapped scenarioA (some 25)).2.rows).flatten =
      List.range scenarioA.length :=
  ⟨by decide, c1_layout_partitions_input scenarioA (some 25) (by decide)⟩

/-- C2: every row of the planner's layout obeys the wrapping bound — its
accumulated width (sprite widths plus one spacing unit between consecutive
sprites) is at most the resolved terminal width, except that a row may
exceed the bound only as a single sprite whose own width alone exceeds it;
such an oversized sprite is placed alone rather than rejected. -/
theorem c2_row_width_bounded (pokemons : List Pokemon) (ts : Option Nat)
    (r : List Nat) (hr : r ∈ (calculate_for_wrapped pokemons ts).2.rows) :
    GoodRow pokemons (resolvedTerminalWidth ts) r :=
  (finalRows_good (wrapLoop_inv pokemons (resolvedTerminalWidth ts)) r hr).1

/-- C2 witness: scenario B — the width-50 sprite at terminal width 25 sits
alone in its row, exceeding the bound as the permitted exception. -/
theorem c2_row_width_bounded_witness :
    [0] ∈ (calculate_for_wrapped scenarioB (some 25)).2.rows ∧
    GoodRow scenarioB (resolvedTerminalWidth (some 25)) [0] :=
  ⟨by decide, c2_row_width_bounded scenarioB (some 25) [0] (by decide)⟩

/-- C3 counterexample: a single sprite of width 5 and height 0 yields a
canvas of height 0 — the computed height is not floored at 1 when the
single row has zero computed height, contrary to the claim (the code
applies the 1-floor to the height only in the unreachable no-rows case,
and to the width always). -/
theorem c3_counterexample_height_not_floored :
    (calculate_for_wrapped zeroHeightPokemon none).1.height = 0 ∧
    ¬ 1 ≤ (calculate_for_wrapped zeroHeightPokemon none).1.height := by
  decide

/-- C3 (amended): for every non-empty sprite sequence the canvas width is
the maximum accumulated row width floored at 1, and the canvas height is
exactly the sum over rows of the maximum sprite height within the row plus
spacing times (number of rows − 1) — with no floor of 1 on the height. -/
theorem c3_dims_formula (pokemons : List Pokemon) (ts : Option Nat)
    (h : pokemons ≠ []) :
    (calculate_for_wrapped pokemons ts).1.width =
      max ((((calculate_for_wrapped pokemons ts).2.rows).map
        (rowWidthFrom pokemons)).foldl max 0) 1 ∧
    (calculate_for_wrapped pokemons ts).1.height =
      (((calculate_for_wrapped pokemons ts).2.rows).map
        (rowHeight pokemons)).sum +
        ((calculate_for_wrapped pokemons ts).2.rows.length - 1)
          * SPRITE_SPACING := by
  have hinv := wrapLoop_inv pokemons (resolvedTerminalWidth ts)
  have hne := finalRows_ne_nil pokemons (resolvedTerminalWidth ts) h
  have hprojW : (calculate_for_wrapped pokemons ts).1.width =
      max (finalMaxRowWidth (wrapLoop (resolvedTerminalWidth ts) pokemons)) 1 := rfl
  have hprojH : (calculate_for_wrapped pokemons ts).1.height =
      totalHeight pokemons
        (finalRows (wrapLoop (resolvedTerminalWidth ts) pokemons)) := rfl
  have hprojR : (calculate_for_wrapped pokemons ts).2.rows =
      finalRows (wrapLoop (resolvedTerminalWidth ts) pokemons) := rfl
  constructor
  · rw [hprojW, hprojR, finalMaxRowWidth_eq hinv]
  · rw [hprojH, hprojR, totalHeight_eq_rowsHeightFrom pokemons _ hne,
      rowsHeightFrom_eq_sum pokemons _ hne]

/-- C3 (amended) witness: scenario A instantiates the dimension formulas. -/
theorem c3_dims_formula_witness :
    scenarioA ≠ [] ∧
    ((calculate_for_wrapped scenarioA (some 25)).1.width =
      max ((((calculate_for_wrapped scenarioA (some 25)).2.rows).map
        (rowWidthFrom scenarioA)).foldl max 0) 1 ∧
    (calculate_for_wrapped scenarioA (some 25)).1.height =
      (((calculate_for_wrapped scenarioA (some 25)).2.rows).map
        (rowHeight scenarioA)).sum +
        ((calculate_for_wrapped scenarioA (some 25)).2.rows.length - 1)
          * SPRITE_SPACING) :=
  ⟨by decide, c3_dims_formula scenarioA (some 25) (by decide)⟩

/-- C4 counterexample: blitting a 2×2 sprite onto a 1×1 canvas — a
footprint outside the canvas bounds — makes composition fail, but with the
`CopyFailed` wrapper around the `image` crate's dimension-mismatch error.
`SpriteError` has only the `CopyFailed` and `EmptyInput` variants: there is
no distinct `PositionOutOfBounds` error reporting the offending coordinates
and sizes, and no bounds check runs before the blit. -/
theorem c4_counterexample_oob_is_copy_failed :
    compose_with_layout (Image.newRgba8 1 1) bigOnTiny ⟨[[0]]⟩ =
      .error (.CopyFailed .dimensionMismatch) := rfl

/-- C4 (amended): when a sprite's footprint would exceed the canvas
bounds, the blit's own bounds check makes composition fail with
`CopyFailed(DimensionMismatch)` — the sprite is never silently clipped —
but the failure is the pixel-copy error wrapper, not a distinct
bounds-violation variant carrying the offending coordinates. -/
theorem c4_oob_fails_composition (pokemons : List Pokemon) (canvas : Image)
    (rowH yOffset xOffset idx : Nat) (rest : List Nat)
    (h : canvas.width < (pkGet pokemons idx).sprite.width + xOffset ∨
      canvas.height < (pkGet pokemons idx).sprite.height +
        spriteY yOffset rowH (pkGet pokemons idx).sprite.height) :
    placeRow pokemons rowH yOffset canvas xOffset (idx :: rest) =
      .error (.CopyFailed .dimensionMismatch) := by
  have hcopy : canvas.copyFrom (pkGet pokemons idx).sprite xOffset
      (spriteY yOffset rowH (pkGet pokemons idx).sprite.height) =
        .error .dimensionMismatch := by
    unfold Image.copyFrom
    rw [if_pos h]
  simp only [placeRow]
  rw [hcopy]

/-- C4 (amended) witness: the 2×2 sprite on the 1×1 canvas. -/
theorem c4_oob_fails_composition_witness :
    ((Image.newRgba8 1 1).width <
        (pkGet bigOnTiny 0).sprite.width + 0 ∨
      (Image.newRgba8 1 1).height <
        (pkGet bigOnTiny 0).sprite.height +
          spriteY 0 2 (pkGet bigOnTiny 0).sprite.height) ∧
    placeRow bigOnTiny 2 0 (Image.newRgba8 1 1) 0 [0] =
      .error (.CopyFailed .dimensionMismatch) :=
  ⟨by decide,
    c4_oob_fails_composition bigOnTiny (Image.newRgba8 1 1) 2 0 0 0 []
      (by decide)⟩

/-- C5 counterexample: when the terminal query returns 10 (below the
configured 40), the planner uses 10 as-is instead of raising it to 40: two
width-6 sprites wrap into two rows at reported width 10, yet share one row
at the fallback width taken when the query is absent. -/
theorem c5_counterexample_below_floor_used :
    resolvedTerminalWidth (some 10) = 10 ∧
    resolvedTerminalWidth (some 10) ≠ MIN_TERMINAL_WIDTH ∧
    (calculate_for_wrapped twoNarrow (some 10)).2.rows = [[0], [1]] ∧
    (calculate_for_wrapped twoNarrow none).2.rows = [[0, 1]] := by
  decide

/-- C5 (amended): `MIN_TERMINAL_WIDTH = 40` is only a fallback for a failed
or absent terminal query; any value the query returns is used unchanged,
even when it is below 40 — no clamping to the minimum takes place. -/
theorem c5_fallback_only :
    (∀ w : Nat, resolvedTerminalWidth (some w) = w) ∧
    resolvedTerminalWidth none = MIN_TERMINAL_WIDTH :=
  ⟨fun _ => rfl, rfl⟩

/-- C6: `combine_sprites` returns the `EmptyInput` error exactly when the
sprite sequence is empty; the check is the first statement of the
function, so no planning or composition runs, and for non-empty input the
error never occurs. -/
theorem c6_empty_input_iff (pokemons : List Pokemon) (ts : Option Nat) :
    combine_sprites pokemons ts = .error .EmptyInput ↔ pokemons = [] := by
  constructor
  · intro herr
    by_contra hne
    obtain ⟨img, hok⟩ := combine_sprites_ok pokemons ts hne
    rw [hok] at herr
    exact Except.noConfusion herr
  · intro he
    subst he
    rfl

/-- C7: bottom alignment — every sprite of a row is placed so that its
bottom edge coincides with the row's bottom edge:
`sprite_y + sprite_height = row_top + row_height`, where the row height is
the maximum sprite height within the row. -/
theorem c7_bottom_aligned (pokemons : List Pokemon) (row : List Nat)
    (yOffset idx : Nat) (h : idx ∈ row) :
    spriteY yOffset (rowHeight pokemons row)
        (pkGet pokemons idx).sprite.height
      + (pkGet pokemons idx).sprite.height =
      yOffset + rowHeight pokemons row := by
  have := height_le_rowHeight pokemons row idx h
  unfold spriteY
  omega

/-- C7 witness: scenario D — the height-30 sprite sharing a row with a
height-50 sprite is placed 20 units below the row top. -/
theorem c7_bottom_aligned_witness :
    (0 : Nat) ∈ [0, 1] ∧
    (spriteY 0 (rowHeight scenarioD [0, 1])
        (pkGet scenarioD 0).sprite.height
      + (pkGet scenarioD 0).sprite.height =
        0 + rowHeight scenarioD [0, 1]) ∧
    spriteY 0 (rowHeight scenarioD [0, 1])
      (pkGet scenarioD 0).sprite.height = 20 :=
  ⟨by decide, c7_bottom_aligned scenarioD [0, 1] 0 0 (by decide), by decide⟩

/-- C8: scenario A — three sprites of widths 10, 10, 10 at terminal width
25 with spacing 1 give exactly two rows, `[0, 1]` and `[2]`; row 1's
accumulated width is 21, and the canvas width is 21. -/
theorem c8_scenario_a :
    (calculate_for_wrapped scenarioA (some 25)).2.rows = [[0, 1], [2]] ∧
    rowWidthFrom scenarioA [0, 1] = 21 ∧
    (calculate_for_wrapped scenarioA (some 25)).1.width = 21 := by
  decide

/-- C9: composition is deterministic — the combine operation is a pure
function of the sprite sequence and the resolved terminal width, so two
runs on the same inputs yield byte-identical canvases (same dimensions and
same pixel data). -/
theorem c9_deterministic (ps1 ps2 : List Pokemon) (ts1 ts2 : Option Nat)
    (h1 : ps1 = ps2) (h2 : ts1 = ts2) :
    combine_sprites ps1 ts1 = combine_sprites ps2 ts2 := by
  rw [h1, h2]

/-- C9 witness: two runs on scenario B agree. -/
theorem c9_deterministic_witness :
    combine_sprites scenarioB (some 25) = combine_sprites scenarioB (some 25) :=
  c9_deterministic scenarioB scenarioB (some 25) (some 25) rfl rfl

/-- C10: for every non-empty sprite sequence, composing with the layout and
dimensions the planner produced for that same sequence keeps every sprite
footprint inside the planned canvas (the compositor's per-row height
recomputation agrees with the planner's), so the blit error branch is
unreachable and `combine_sprites` returns a canvas. -/
theorem c10_combine_succeeds (pokemons : List Pokemon) (ts : Option Nat)
    (h : pokemons ≠ []) :
    ∃ img, combine_sprites pokemons ts = .ok img :=
  combine_sprites_ok pokemons ts h

/-- C10 witness: scenario A composes successfully. -/
theorem c10_combine_succeeds_witness :
    scenarioA ≠ [] ∧ ∃ img, combine_sprites scenarioA (some 25) = .ok img :=
  ⟨by decide, c10_combine_succeeds scenarioA (some 25) (by decide)⟩

end Pokeget
